import Mathlib

/-!
Verification of the account-deletion cascade and the media-attachment
repository of the gotosocial backend.

The Go sources embedded here are:
  internal/processing/account/delete.go  (deletion cascade, stubbification)
  internal/db/bundb/media.go             (media attachment repository)
  internal/processing/admin/media.go     (admin media entry points)

The persistent store (bundb query layer) is an external collaborator whose
code is not part of the three source files; its operations are modelled
from the specification (section 6: point lookups, filtered lookups,
paginated listing with cursor and limit, partial-column update,
delete-by-id, delete-by-filter, with a distinguishable no-matching-rows
outcome).  Machine time is passed in explicitly as a natural number, IP
addresses are strings, and the uuid/bcrypt primitives are supplied as an
oracle so that their failure paths stay visible.
-/

set_option maxRecDepth 100000

namespace GTS

/-! ## Lexicographic string order used by the modelled store

The store orders ULID string ids lexicographically.  Lean's built-in
String order does not reduce in the kernel, so the model carries its own
executable lexicographic comparison over the character lists. -/

def strLtb : List Char → List Char → Bool
  | [], [] => false
  | [], _ :: _ => true
  | _ :: _, [] => false
  | a :: as, b :: bs => if a < b then true else if b < a then false else strLtb as bs

/-- Lexicographic strict order on strings, executable in the kernel. -/
def strLt (a b : String) : Bool := strLtb a.data b.data

theorem strLtb_irrefl (l : List Char) : strLtb l l = false := by
  induction l with
  | nil => rfl
  | cons a as ih => simp [strLtb, ih]

theorem strLt_irrefl (s : String) : strLt s s = false := strLtb_irrefl s.data

theorem strLtb_trans : ∀ (a b c : List Char),
    strLtb a b = true → strLtb b c = true → strLtb a c = true
  | [], [], _ :: _, _, _ => rfl
  | [], _ :: _, _ :: _, _, _ => rfl
  | [], [], [], h, _ => by simp [strLtb] at h
  | [], _ :: _, [], _, h => by simp [strLtb] at h
  | _ :: _, [], _, h, _ => by simp [strLtb] at h
  | _ :: _, _ :: _, [], _, h => by simp [strLtb] at h
  | a :: as, b :: bs, c :: cs, hab, hbc => by
    simp only [strLtb] at hab hbc ⊢
    by_cases h1 : a < b
    · by_cases h2 : b < c
      · simp [lt_trans h1 h2]
      · simp only [h2, if_false] at hbc
        by_cases h3 : c < b
        · simp [h3] at hbc
        · have hbc' : c = b := le_antisymm (not_lt.mp h2) (not_lt.mp h3)
          subst hbc'
          simp [h1]
    · simp only [h1, if_false] at hab
      by_cases h4 : b < a
      · simp [h4] at hab
      · have hab' : a = b := le_antisymm (not_lt.mp h4) (not_lt.mp h1)
        subst hab'
        rw [if_neg (lt_irrefl a)] at hab
        by_cases h2 : a < c
        · simp [h2]
        · simp only [h2, if_false] at hbc ⊢
          by_cases h3 : c < a
          · simp [h3] at hbc
          · simp only [h3, if_false] at hbc ⊢
            exact strLtb_trans as bs cs hab hbc

theorem strLt_trans {a b c : String} (h1 : strLt a b = true) (h2 : strLt b c = true) :
    strLt a c = true := strLtb_trans a.data b.data c.data h1 h2

/-! ## Data model (gtsmodel records)

Fields are restricted to the ones the embedded code reads or writes.
Go `time.Time` becomes `Nat` (`0` is the zero time), `net.IP` becomes a
string (`"0.0.0.0"` is `net.IPv4zero`), `*bool` becomes `Bool`, custom
emoji objects are carried as their ids. -/

structure Account where
  ID : String
  Username : String
  Domain : String
  FetchedAt : Nat
  AvatarMediaAttachmentID : String
  AvatarRemoteURL : String
  HeaderMediaAttachmentID : String
  HeaderRemoteURL : String
  DisplayName : String
  EmojiIDs : List String
  Emojis : List String
  Fields : List (String × String)
  Note : String
  NoteRaw : String
  Memorial : Bool
  AlsoKnownAs : String
  MovedToAccountID : String
  Reason : String
  Discoverable : Bool
  StatusContentType : String
  CustomCSS : String
  SuspendedAt : Nat
  SuspensionOrigin : String
  HideCollections : Bool
  EnableRSS : Bool
deriving DecidableEq, Repr

/-- Account.IsLocal: an account is local exactly when its domain is empty. -/
def Account.IsLocal (a : Account) : Bool := a.Domain == ""

structure User where
  ID : String
  AccountID : String
  Email : String
  EncryptedPassword : String
  SignUpIP : String
  CurrentSignInAt : Nat
  CurrentSignInIP : String
  LastSignInAt : Nat
  LastSignInIP : String
  SignInCount : Nat
  Locale : String
  CreatedByApplicationID : String
  LastEmailedAt : Nat
  ConfirmationToken : String
  ConfirmationSentAt : Nat
  ResetPasswordToken : String
  ResetPasswordSentAt : Nat
deriving DecidableEq, Repr

structure Token where
  ID : String
  UserID : String
  ClientID : String
deriving DecidableEq, Repr

structure Client where
  ID : String
deriving DecidableEq, Repr

structure Application where
  ID : String
  ClientID : String
deriving DecidableEq, Repr

structure Follow where
  ID : String
  URI : String
  AccountID : String
  TargetAccountID : String
  Account : Option GTS.Account
  TargetAccount : Option GTS.Account
deriving DecidableEq, Repr

structure FollowRequest where
  ID : String
  URI : String
  AccountID : String
  TargetAccountID : String
  Account : Option GTS.Account
  TargetAccount : Option GTS.Account
deriving DecidableEq, Repr

structure Block where
  ID : String
  AccountID : String
  TargetAccountID : String
deriving DecidableEq, Repr

structure Status where
  ID : String
  AccountID : String
  BoostOfID : String
  Account : Option GTS.Account
deriving DecidableEq, Repr

structure Notification where
  ID : String
  OriginAccountID : String
  TargetAccountID : String
deriving DecidableEq, Repr

structure StatusBookmark where
  ID : String
  AccountID : String
  TargetAccountID : String
deriving DecidableEq, Repr

structure StatusFave where
  ID : String
  AccountID : String
  TargetAccountID : String
deriving DecidableEq, Repr

/-! ## ActivityPub vocabulary constants (internal/ap) -/

namespace ap

def ActorPerson : String := "Person"

def ActivityDelete : String := "Delete"

def ActivityFollow : String := "Follow"

def ActivityUndo : String := "Undo"

def ObjectNote : String := "Note"

def ActivityAnnounce : String := "Announce"

end ap

/-! ## Worker messages (internal/messages) -/

/-- Payload carried in the GTSModel field of a worker message. -/
inductive GTSData where
  | follow (f : Follow)
  | status (s : Status)
deriving DecidableEq, Repr

/-- messages.FromClientAPI: an event envelope handed to the client-api
worker queue. -/
structure FromClientAPI where
  APObjectType : String
  APActivityType : String
  GTSModel : Option GTSData
  OriginAccount : Option Account
  TargetAccount : Option Account
deriving DecidableEq, Repr

/-! ## Modelled persistent store -/

/-- Store errors: the distinguished no-matching-rows outcome versus any
other store failure. -/
inductive DBErr where
  | noEntries
  | storeErr
deriving DecidableEq, Repr

/-- Concrete state of the persistent store: one list of rows per record
type touched by the deletion cascade. -/
structure DBState where
  accounts : List Account
  users : List User
  tokens : List Token
  clients : List Client
  applications : List Application
  follows : List Follow
  followRequests : List FollowRequest
  blocks : List Block
  statuses : List Status
  notifications : List Notification
  bookmarks : List StatusBookmark
  faves : List StatusFave
deriving DecidableEq, Repr

/-- Modelled from the spec: point lookup of the one user owned by an
account; a struct lookup distinguishes no matching rows. -/
def DBState.getUserByAccountID (db : DBState) (accountID : String) : Except DBErr User :=
  match db.users.find? (fun u => u.AccountID == accountID) with
  | some u => .ok u
  | none => .error .noEntries

/-- Modelled from the spec: filtered lookup of the tokens of a user; a
slice scan yields an empty list rather than a no-rows error. -/
def DBState.getTokensForUser (db : DBState) (userID : String) : List Token :=
  db.tokens.filter (fun t => t.UserID == userID)

/-- Modelled from the spec: delete-by-id over oauth clients; deleting an
absent row is success. -/
def DBState.deleteClientByID (db : DBState) (id : String) : DBState :=
  { db with clients := db.clients.filter (fun c => !(c.ID == id)) }

/-- Modelled from the spec: delete-by-filter over oauth applications
keyed by client id. -/
def DBState.deleteApplicationsByClientID (db : DBState) (clientID : String) : DBState :=
  { db with applications := db.applications.filter (fun a => !(a.ClientID == clientID)) }

/-- Modelled from the spec: delete-by-id over oauth tokens. -/
def DBState.deleteTokenByID (db : DBState) (id : String) : DBState :=
  { db with tokens := db.tokens.filter (fun t => !(t.ID == id)) }

/-- Modelled from the spec: partial-column update of a user row; the
in-memory record already carries exactly the changed columns, so the
update replaces the row with the given id. -/
def DBState.updateUser (db : DBState) (user : User) (_columns : List String) : DBState :=
  { db with users := db.users.map (fun u => if u.ID == user.ID then user else u) }

/-- Modelled from the spec: partial-column update of an account row. -/
def DBState.updateAccount (db : DBState) (account : Account) (_columns : List String) : DBState :=
  { db with accounts := db.accounts.map (fun a => if a.ID == account.ID then account else a) }

/-- Modelled from the spec: filtered lookup of follows targeting an
account, with the distinguishable no-matching-rows outcome. -/
def DBState.getAccountFollowers (db : DBState) (accountID : String) : Except DBErr (List Follow) :=
  let l := db.follows.filter (fun f => f.TargetAccountID == accountID)
  if l.isEmpty then .error .noEntries else .ok l

/-- Modelled from the spec: filtered lookup of follow requests targeting
an account. -/
def DBState.getAccountFollowRequests (db : DBState) (accountID : String) : Except DBErr (List FollowRequest) :=
  let l := db.followRequests.filter (fun f => f.TargetAccountID == accountID)
  if l.isEmpty then .error .noEntries else .ok l

/-- Modelled from the spec: filtered lookup of follows created by an
account. -/
def DBState.getAccountFollows (db : DBState) (accountID : String) : Except DBErr (List Follow) :=
  let l := db.follows.filter (fun f => f.AccountID == accountID)
  if l.isEmpty then .error .noEntries else .ok l

/-- Modelled from the spec: filtered lookup of follow requests created by
an account. -/
def DBState.getAccountFollowRequesting (db : DBState) (accountID : String) : Except DBErr (List FollowRequest) :=
  let l := db.followRequests.filter (fun f => f.AccountID == accountID)
  if l.isEmpty then .error .noEntries else .ok l

/-- Modelled from the spec: delete-by-id over follow rows. -/
def DBState.deleteFollowByID (db : DBState) (id : String) : DBState :=
  { db with follows := db.follows.filter (fun f => !(f.ID == id)) }

/-- Modelled from the spec: delete-by-id over follow request rows. -/
def DBState.deleteFollowRequestByID (db : DBState) (id : String) : DBState :=
  { db with followRequests := db.followRequests.filter (fun f => !(f.ID == id)) }

/-- Modelled from the spec: delete-by-filter of all block rows involving
an account on either side. -/
def DBState.deleteAccountBlocksByID (db : DBState) (accountID : String) : DBState :=
  { db with blocks := db.blocks.filter (fun b => !(b.AccountID == accountID || b.TargetAccountID == accountID)) }

/-- Row filter of the status pager: statuses owned by the account, with
the cursor as an exclusive upper bound on the id (empty cursor means
unbounded). -/
def statusSelect (accountID maxID : String) (s : Status) : Bool :=
  s.AccountID == accountID && (maxID == "" || strLt s.ID maxID)

/-- Insert a status into a list kept in descending id order. -/
def insertStatusDesc (s : Status) : List Status → List Status
  | [] => [s]
  | t :: rest => if strLt t.ID s.ID then s :: t :: rest else t :: insertStatusDesc s rest

/-- Sort statuses into descending id order (insertion sort, kernel
executable). -/
def sortStatusesDesc : List Status → List Status
  | [] => []
  | s :: rest => insertStatusDesc s (sortStatusesDesc rest)

/-- Modelled from the spec: paginated listing of the statuses of an
account, descending by id, cursor exclusive, fixed row limit. -/
def DBState.getAccountStatuses (db : DBState) (accountID : String) (limit : Nat) (maxID : String) : Except DBErr (List Status) :=
  let l := (sortStatusesDesc (db.statuses.filter (statusSelect accountID maxID))).take limit
  if l.isEmpty then .error .noEntries else .ok l

/-- Modelled from the spec: filtered lookup of the boosts (reblogs) of a
status. -/
def DBState.getStatusReblogs (db : DBState) (status : Status) : Except DBErr (List Status) :=
  let l := db.statuses.filter (fun s => s.BoostOfID == status.ID)
  if l.isEmpty then .error .noEntries else .ok l

/-- Modelled from the spec: point lookup of an account by id. -/
def DBState.getAccountByID (db : DBState) (id : String) : Except DBErr Account :=
  match db.accounts.find? (fun a => a.ID == id) with
  | some a => .ok a
  | none => .error .noEntries

/-- Modelled from the spec: delete-by-filter over notifications; an empty
filter argument is a wildcard, and matching zero rows is reported as the
no-matching-rows outcome. -/
def DBState.deleteNotifications (db : DBState) (targetAccountID originAccountID : String) : Except DBErr DBState :=
  let pred := fun (n : Notification) =>
    (targetAccountID == "" || n.TargetAccountID == targetAccountID)
    && (originAccountID == "" || n.OriginAccountID == originAccountID)
  if (db.notifications.filter pred).isEmpty then .error .noEntries
  else .ok { db with notifications := db.notifications.filter (fun n => !(pred n)) }

/-- Modelled from the spec: delete-by-filter over status bookmarks, keyed
on the owning side and the targeted side (empty means wildcard). -/
def DBState.deleteStatusBookmarks (db : DBState) (accountID targetAccountID : String) : Except DBErr DBState :=
  let pred := fun (b : StatusBookmark) =>
    (accountID == "" || b.AccountID == accountID)
    && (targetAccountID == "" || b.TargetAccountID == targetAccountID)
  if (db.bookmarks.filter pred).isEmpty then .error .noEntries
  else .ok { db with bookmarks := db.bookmarks.filter (fun b => !(pred b)) }

/-- Modelled from the spec: delete-by-filter over status faves, keyed on
the owning side and the targeted side (empty means wildcard). -/
def DBState.deleteStatusFaves (db : DBState) (accountID targetAccountID : String) : Except DBErr DBState :=
  let pred := fun (f : StatusFave) =>
    (accountID == "" || f.AccountID == accountID)
    && (targetAccountID == "" || f.TargetAccountID == targetAccountID)
  if (db.faves.filter pred).isEmpty then .error .noEntries
  else .ok { db with faves := db.faves.filter (fun f => !(pred f)) }

/-! ## Processor state and worker queue -/

/-- Processor-visible state: the store plus the batches handed to the
client-api worker queue, in submission order. -/
structure ProcState where
  db : DBState
  queued : List (List FromClientAPI)
deriving DecidableEq, Repr

/-- state.Workers.EnqueueClientAPI: accepts one variadic batch of
messages for asynchronous processing. -/
def enqueueClientAPI (st : ProcState) (msgs : List FromClientAPI) : ProcState :=
  { st with queued := st.queued ++ [msgs] }

/-- Oracle for the external credential primitives: uuid generation
(random-value generation) and bcrypt hashing, each of which can fail. -/
structure CryptoOracle where
  uuidBytes : Except Unit (List Nat)
  bcryptHash : List Nat → Except Unit String

/-- Go error-handling idiom `if err != nil && !errors.Is(err, db.ErrNoEntries)`:
a no-matching-rows outcome is tolerated and leaves the result list empty,
any other store error is surfaced with the step's message. -/
def tolerateNoEntries {α : Type} (r : Except DBErr (List α)) (msg : String) : Except String (List α) :=
  match r with
  | .ok l => .ok l
  | .error e => if e == .noEntries then .ok [] else .error msg

/-! ## Stubbification transforms (delete.go) -/

/-- stubbifyAccount: renders the account as a stub, removing most
information from it and marking it as suspended; returns the db names of
all columns it updates.  The current time is passed in as `now`. -/
def stubbifyAccount (account : Account) (origin : String) (now : Nat) : Account × List String :=
  let account :=
    { account with
      FetchedAt := 0
      AvatarMediaAttachmentID := ""
      AvatarRemoteURL := ""
      HeaderMediaAttachmentID := ""
      HeaderRemoteURL := ""
      DisplayName := ""
      EmojiIDs := []
      Emojis := []
      Fields := []
      Note := ""
      NoteRaw := ""
      Memorial := false
      AlsoKnownAs := ""
      MovedToAccountID := ""
      Reason := ""
      Discoverable := false
      StatusContentType := ""
      CustomCSS := ""
      SuspendedAt := now
      SuspensionOrigin := origin
      HideCollections := true
      EnableRSS := false }
  (account,
    ["fetched_at",
     "avatar_media_attachment_id",
     "avatar_remote_url",
     "header_media_attachment_id",
     "header_remote_url",
     "display_name",
     "emojis",
     "fields",
     "note",
     "note_raw",
     "memorial",
     "also_known_as",
     "moved_to_account_id",
     "reason",
     "discoverable",
     "status_content_type",
     "custom_css",
     "suspended_at",
     "suspension_origin",
     "hide_collections",
     "enable_rss"])

/-- stubbifyUser: removes sensitive information but keeps the email
address; the encrypted password becomes the bcrypt hash of a fresh random
uuid.  Fails when uuid marshalling or hashing fails. -/
def stubbifyUser (crypto : CryptoOracle) (user : User) : Except Unit (User × List String) := do
  let uuid ← crypto.uuidBytes
  let dummyPassword ← crypto.bcryptHash uuid
  let user :=
    { user with
      EncryptedPassword := dummyPassword
      SignUpIP := "0.0.0.0"
      CurrentSignInAt := 0
      CurrentSignInIP := "0.0.0.0"
      LastSignInAt := 0
      LastSignInIP := "0.0.0.0"
      SignInCount := 1
      Locale := ""
      CreatedByApplicationID := ""
      LastEmailedAt := 0
      ConfirmationToken := ""
      ConfirmationSentAt := 0
      ResetPasswordToken := ""
      ResetPasswordSentAt := 0 }
  pure (user,
    ["encrypted_password",
     "sign_up_ip",
     "current_sign_in_at",
     "current_sign_in_ip",
     "last_sign_in_at",
     "last_sign_in_ip",
     "sign_in_count",
     "locale",
     "created_by_application_id",
     "last_emailed_at",
     "confirmation_token",
     "confirmation_sent_at",
     "reset_password_token",
     "reset_password_sent_at"])

/-! ## Deletion cascade steps (delete.go) -/

/-- deleteUserAndTokensForAccount: deletes the user's oauth tokens (with
their clients and applications) and stubbifies the user.  Any error from
the user lookup, including no matching rows, is surfaced. -/
def deleteUserAndTokensForAccount (crypto : CryptoOracle) (st : ProcState) (account : Account) : Except String ProcState :=
  match st.db.getUserByAccountID account.ID with
  | .error _ => .error "deleteUserAndTokensForAccount: db error getting user"
  | .ok user =>
    let tokens := st.db.getTokensForUser user.ID
    let db := tokens.foldl
      (fun db t => ((db.deleteClientByID t.ClientID).deleteApplicationsByClientID t.ClientID).deleteTokenByID t.ID)
      st.db
    match stubbifyUser crypto user with
    | .error _ => .error "deleteUserAndTokensForAccount: error stubbifying user"
    | .ok (user, columns) => .ok { st with db := db.updateUser user columns }

/-- unfollowSideEffectsFunc: the per-call unfollow side-effect policy.
For a non-local deleted account the returned closure is a constant noop;
otherwise it skips follows whose target account record is gone, emits
nothing for local targets, and emits an undo-follow message for remote
targets. -/
def unfollowSideEffectsFunc (deletedAccount : Account) : Account → Follow → Option FromClientAPI :=
  if !deletedAccount.IsLocal then
    fun _ _ => none
  else
    fun account follow =>
      match follow.TargetAccount with
      | none => none
      | some target =>
        if target.IsLocal then none
        else some
          { APObjectType := ap.ActivityFollow
            APActivityType := ap.ActivityUndo
            GTSModel := some (.follow follow)
            OriginAccount := some account
            TargetAccount := some target }

/-- Loop body of the third pass of deleteAccountFollows: delete each
follow owned by the account and collect the side-effect message the
policy returns for it, if any. -/
def unfollowLoop (sideEffects : Account → Follow → Option FromClientAPI) (account : Account) :
    DBState → List Follow → List FromClientAPI → DBState × List FromClientAPI
  | db, [], msgs => (db, msgs)
  | db, follow :: rest, msgs =>
    let db := db.deleteFollowByID follow.ID
    let msgs := match sideEffects account follow with
      | some msg => msgs ++ [msg]
      | none => msgs
    unfollowLoop sideEffects account db rest msgs

/-- Dummy follow constructed from a follow request so the side-effects
policy has something to work with; it never enters the db. -/
def followRequestToFollow (fr : FollowRequest) : Follow :=
  { ID := ""
    URI := fr.URI
    AccountID := fr.AccountID
    TargetAccountID := fr.TargetAccountID
    Account := fr.Account
    TargetAccount := fr.TargetAccount }

/-- Loop body of the fourth pass of deleteAccountFollows: delete each
follow request owned by the account, dummy it out as a follow, and apply
the same side-effects policy. -/
def unfollowRequestLoop (sideEffects : Account → Follow → Option FromClientAPI) (account : Account) :
    DBState → List FollowRequest → List FromClientAPI → DBState × List FromClientAPI
  | db, [], msgs => (db, msgs)
  | db, followRequest :: rest, msgs =>
    let db := db.deleteFollowRequestByID followRequest.ID
    let follow := followRequestToFollow followRequest
    let msgs := match sideEffects account follow with
      | some msg => msgs ++ [msg]
      | none => msgs
    unfollowRequestLoop sideEffects account db rest msgs

/-- deleteAccountFollows: deletes follows and follow requests targeting
the account, then follows and follow requests created by it, collecting
unfollow side-effect messages and dispatching them as one batch. -/
def deleteAccountFollows (st : ProcState) (account : Account) : Except String ProcState :=
  match tolerateNoEntries (st.db.getAccountFollowers account.ID)
      "deleteAccountFollows: db error getting follows targeting account" with
  | .error e => .error e
  | .ok followedBy =>
    let db := followedBy.foldl (fun db follow => db.deleteFollowByID follow.ID) st.db
    match tolerateNoEntries (db.getAccountFollowRequests account.ID)
        "deleteAccountFollows: db error getting follow requests targeting account" with
    | .error e => .error e
    | .ok followRequestedBy =>
      let db := followRequestedBy.foldl (fun db fr => db.deleteFollowRequestByID fr.ID) db
      let unfollowSideEffects := unfollowSideEffectsFunc account
      match tolerateNoEntries (db.getAccountFollows account.ID)
          "deleteAccountFollows: db error getting follows owned by account" with
      | .error e => .error e
      | .ok following =>
        let r := unfollowLoop unfollowSideEffects account db following []
        match tolerateNoEntries (r.1.getAccountFollowRequesting account.ID)
            "deleteAccountFollows: db error getting follow requests owned by account" with
        | .error e => .error e
        | .ok followRequesting =>
          let r := unfollowRequestLoop unfollowSideEffects account r.1 followRequesting r.2
          .ok (enqueueClientAPI { st with db := r.1 } r.2)

/-- deleteAccountBlocks: deletes all blocks involving the account. -/
def deleteAccountBlocks (st : ProcState) (account : Account) : Except String ProcState :=
  .ok { st with db := st.db.deleteAccountBlocksByID account.ID }

/-- The fixed page size of the status pager. -/
def deleteSelectLimit : Nat := 50

/-- Message for the deletion of one of the account's own statuses. -/
def deleteNoteMsg (status : Status) (account : Account) : FromClientAPI :=
  { APObjectType := ap.ObjectNote
    APActivityType := ap.ActivityDelete
    GTSModel := some (.status status)
    OriginAccount := some account
    TargetAccount := some account }

/-- Message undoing one boost of a deleted status, attributed to the
booster. -/
def undoAnnounceMsg (status : Status) (boostAccount : Account) (account : Account) : FromClientAPI :=
  { APObjectType := ap.ActivityAnnounce
    APActivityType := ap.ActivityUndo
    GTSModel := some (.status status)
    OriginAccount := some boostAccount
    TargetAccount := some account }

/-- Inner boost loop of deleteAccountStatuses: for each boost of a
status, fetch the booster account if it is not attached, skipping the
boost when no such account exists, and emit an undo-announce message. -/
def processBoosts (account : Account) (status : Status) (db : DBState) :
    List Status → List FromClientAPI → Except String (List FromClientAPI)
  | [], msgs => .ok msgs
  | boost :: rest, msgs =>
    match boost.Account with
    | some boostAcc => processBoosts account status db rest (msgs ++ [undoAnnounceMsg status boostAcc account])
    | none =>
      match db.getAccountByID boost.AccountID with
      | .error .noEntries => processBoosts account status db rest msgs
      | .error _ => .error "deleteAccountStatuses: error fetching boosted status account"
      | .ok boostAcc => processBoosts account status db rest (msgs ++ [undoAnnounceMsg status boostAcc account])

/-- Per-page loop of deleteAccountStatuses: for every status on the page
emit a delete-note message, then process its boosts. -/
def processStatusPage (account : Account) (db : DBState) :
    List Status → List FromClientAPI → Except String (List FromClientAPI)
  | [], msgs => .ok msgs
  | status :: rest, msgs =>
    let status := { status with Account := some account }
    let msgs := msgs ++ [deleteNoteMsg status account]
    match tolerateNoEntries (db.getStatusReblogs status)
        "deleteAccountStatuses: error fetching status reblogs" with
    | .error e => .error e
    | .ok boosts =>
      match processBoosts account status db boosts msgs with
      | .error e => .error e
      | .ok msgs => processStatusPage account db rest msgs

/-- Paging loop of deleteAccountStatuses.  The Go original is an
unbounded `for` loop; here it carries fuel, and the caller passes enough
fuel for any store whose status ids are non-empty.  Also counts the
non-empty pages it consumed. -/
def deleteStatusesLoop (account : Account) (db : DBState) :
    Nat → String → List FromClientAPI → Nat → Except String (List FromClientAPI × Nat)
  | 0, _, _, _ => .error "deleteAccountStatuses: status pagination failed to terminate"
  | fuel + 1, maxID, msgs, pages =>
    match tolerateNoEntries (db.getAccountStatuses account.ID deleteSelectLimit maxID)
        "deleteAccountStatuses: db error getting statuses" with
    | .error e => .error e
    | .ok statuses =>
      match statuses.getLast? with
      | none => .ok (msgs, pages)
      | some last =>
        match processStatusPage account db statuses msgs with
        | .error e => .error e
        | .ok msgs => deleteStatusesLoop account db fuel last.ID msgs (pages + 1)

/-- deleteAccountStatuses: pages through the statuses owned by the
account, accretes delete-note and undo-announce messages across all
pages, and dispatches them as one batch after the scan. -/
def deleteAccountStatuses (st : ProcState) (account : Account) : Except String ProcState :=
  match deleteStatusesLoop account st.db (st.db.statuses.length + 1) "" [] 0 with
  | .error e => .error e
  | .ok (msgs, _pages) => .ok (enqueueClientAPI st msgs)

/-- Go idiom for a filtered delete with the tolerance check
`err != nil && !errors.Is(err, db.ErrNoEntries)`: a no-matching-rows
outcome leaves the state unchanged and is success, any other store error
surfaces. -/
def tolerateDel (r : Except DBErr DBState) (db : DBState) : Except DBErr DBState :=
  match r with
  | .ok db => .ok db
  | .error e => if e == .noEntries then .ok db else .error e

/-- deleteAccountNotifications: deletes all notifications targeting and
all notifications originating from the account, tolerating the
no-matching-rows outcome on each. -/
def deleteAccountNotifications (st : ProcState) (account : Account) : Except String ProcState :=
  match tolerateDel (st.db.deleteNotifications account.ID "") st.db with
  | .error _ => .error "deleteAccountNotifications: db error deleting notifications targeting account"
  | .ok db =>
  match tolerateDel (db.deleteNotifications "" account.ID) db with
  | .error _ => .error "deleteAccountNotifications: db error deleting notifications originating from account"
  | .ok db => .ok { st with db := db }

/-- deleteAccountPeripheral: deletes bookmarks and faves owned by and
targeting the account (four filtered deletes), tolerating the
no-matching-rows outcome on each. -/
def deleteAccountPeripheral (st : ProcState) (account : Account) : Except String ProcState :=
  match tolerateDel (st.db.deleteStatusBookmarks account.ID "") st.db with
  | .error _ => .error "deleteAccountPeripheral: db error deleting bookmarks owned by account"
  | .ok db =>
  match tolerateDel (db.deleteStatusBookmarks "" account.ID) db with
  | .error _ => .error "deleteAccountPeripheral: db error deleting bookmarks targeting account"
  | .ok db =>
  match tolerateDel (db.deleteStatusFaves account.ID "") db with
  | .error _ => .error "deleteAccountPeripheral: db error deleting faves owned by account"
  | .ok db =>
  match tolerateDel (db.deleteStatusFaves "" account.ID) db with
  | .error _ => .error "deleteAccountPeripheral: db error deleting faves targeting account"
  | .ok db => .ok { st with db := db }

/-- Delete: the account deletion cascade.  Runs the user-and-tokens step
for local accounts, then follows, blocks, statuses, notifications and
peripheral engagement, and finally stubbifies the account record and
persists the changed columns.  Every step failure is surfaced as an
internal error. -/
def Delete (crypto : CryptoOracle) (now : Nat) (st : ProcState) (account : Account) (origin : String) : Except String ProcState := do
  let st ← if account.IsLocal then deleteUserAndTokensForAccount crypto st account else pure st
  let st ← deleteAccountFollows st account
  let st ← deleteAccountBlocks st account
  let st ← deleteAccountStatuses st account
  let st ← deleteAccountNotifications st account
  let st ← deleteAccountPeripheral st account
  let r := stubbifyAccount account origin now
  pure { st with db := st.db.updateAccount r.1 r.2 }

/-- DeleteSelf: enqueues a single delete-actor message for the account
and returns immediately; no store access happens here. -/
def DeleteSelf (st : ProcState) (account : Account) : Except String ProcState :=
  let fromClientAPIMessage : FromClientAPI :=
    { APObjectType := ap.ActorPerson
      APActivityType := ap.ActivityDelete
      GTSModel := none
      OriginAccount := some account
      TargetAccount := some account }
  .ok (enqueueClientAPI st [fromClientAPIMessage])

/-! ## Media attachment repository (media.go) -/

structure MediaAttachment where
  ID : String
  StatusID : String
  URL : String
  RemoteURL : String
  CreatedAt : Nat
  UpdatedAt : Nat
  Avatar : Bool
  Header : Bool
  Cached : Bool
deriving DecidableEq, Repr

/-- Column names of the modelled media_attachments table; a bun update
without an explicit column list persists all of them. -/
def mediaAttachmentColumns : List String :=
  ["id", "status_id", "url", "remote_url", "created_at", "updated_at", "avatar", "header", "cached"]

/-- State of the media attachment store.  `failingIDs` models ids whose
individual store lookup fails with an error other than not-found. -/
structure MediaDBState where
  attachments : List MediaAttachment
  failingIDs : List String
deriving DecidableEq, Repr

/-- GetAttachmentByID: cached load of a single attachment; not-found is
the distinguished no-matching-rows outcome. -/
def MediaDBState.getAttachmentByID (m : MediaDBState) (id : String) : Except DBErr MediaAttachment :=
  if m.failingIDs.contains id then .error .storeErr
  else
    match m.attachments.find? (fun a => a.ID == id) with
    | some a => .ok a
    | none => .error .noEntries

/-- Loop of GetAttachmentsByIDs: one load per id; any failing id is
logged and skipped.  The second component counts the loads issued. -/
def getAttachmentsLoop (m : MediaDBState) :
    List String → List MediaAttachment → Nat → Except DBErr (List MediaAttachment) × Nat
  | [], attachments, loads => (.ok attachments, loads)
  | id :: rest, attachments, loads =>
    match m.getAttachmentByID id with
    | .error _ => getAttachmentsLoop m rest attachments (loads + 1)
    | .ok attachment => getAttachmentsLoop m rest (attachments ++ [attachment]) (loads + 1)

/-- GetAttachmentsByIDs: best-effort batch read; returns the attachments
of the ids whose load succeeded, in request order, and never fails. -/
def MediaDBState.getAttachmentsByIDs (m : MediaDBState) (ids : List String) : Except DBErr (List MediaAttachment) × Nat :=
  getAttachmentsLoop m ids [] 0

/-- UpdateAttachment: stamps the update timestamp, forces the updated_at
column into a caller-supplied column list, and persists.  Returns the
new store state, the stored record, and the set of columns the update
query persists (all columns when the caller supplied none). -/
def UpdateAttachment (m : MediaDBState) (now : Nat) (media : MediaAttachment) (columns : List String) :
    MediaDBState × MediaAttachment × List String :=
  let media := { media with UpdatedAt := now }
  let columns := if columns.length > 0 then columns ++ ["updated_at"] else columns
  let persisted := if columns.isEmpty then mediaAttachmentColumns else columns
  ({ m with attachments := m.attachments.map (fun a => if a.ID == media.ID then media else a) },
   media, persisted)

/-! ## Admin media entry points (internal/processing/admin/media.go) -/

/-- Error codes surfaced by the admin processor. -/
inductive AdminErrCode where
  | badRequest
  | internalError
deriving DecidableEq, Repr

/-- MediaPrune: rejects a negative retention argument as a bad request
without invoking the media manager, otherwise delegates to the manager's
PruneAll (whose outcome is supplied as an oracle value).  The boolean
records whether the manager was invoked. -/
def MediaPrune (pruneAllResult : Except Unit Unit) (mediaRemoteCacheDays : Int) :
    Except AdminErrCode Unit × Bool :=
  if mediaRemoteCacheDays < 0 then (.error .badRequest, false)
  else
    match pruneAllResult with
    | .error _ => (.error .internalError, true)
    | .ok _ => (.ok (), true)

/-! ## Test fixtures -/

/-- A blank account record (local: empty domain). -/
def baseAccount : Account :=
  { ID := "", Username := "", Domain := "", FetchedAt := 0,
    AvatarMediaAttachmentID := "", AvatarRemoteURL := "",
    HeaderMediaAttachmentID := "", HeaderRemoteURL := "",
    DisplayName := "", EmojiIDs := [], Emojis := [], Fields := [],
    Note := "", NoteRaw := "", Memorial := false, AlsoKnownAs := "",
    MovedToAccountID := "", Reason := "", Discoverable := false,
    StatusContentType := "", CustomCSS := "", SuspendedAt := 0,
    SuspensionOrigin := "", HideCollections := false, EnableRSS := false }

/-- A blank user record. -/
def baseUser : User :=
  { ID := "", AccountID := "", Email := "", EncryptedPassword := "",
    SignUpIP := "", CurrentSignInAt := 0, CurrentSignInIP := "",
    LastSignInAt := 0, LastSignInIP := "", SignInCount := 0, Locale := "",
    CreatedByApplicationID := "", LastEmailedAt := 0, ConfirmationToken := "",
    ConfirmationSentAt := 0, ResetPasswordToken := "", ResetPasswordSentAt := 0 }

/-- An empty store. -/
def emptyDB : DBState :=
  { accounts := [], users := [], tokens := [], clients := [], applications := [],
    follows := [], followRequests := [], blocks := [], statuses := [],
    notifications := [], bookmarks := [], faves := [] }

/-- Credential oracle whose uuid and bcrypt primitives succeed. -/
def cryptoOK : CryptoOracle :=
  { uuidBytes := .ok [0], bcryptHash := fun _ => .ok "stub-hash" }

/-- Credential oracle whose uuid generation fails. -/
def cryptoFail : CryptoOracle :=
  { uuidBytes := .error (), bcryptHash := fun _ => .error () }

/-- A remote account (non-empty domain). -/
def remoteAccount : Account :=
  { baseAccount with ID := "remote01", Username := "r", Domain := "remote.example" }

/-- A second local account. -/
def localAccount2 : Account :=
  { baseAccount with ID := "local02", Username := "b" }

/-- A follow edge with the given target account record attached. -/
def followTo (target : Option Account) : Follow :=
  { ID := "follow01", URI := "https://example.test/follow01",
    AccountID := "local02", TargetAccountID := "target01",
    Account := none, TargetAccount := target }

/-! ## Shared lemmas -/

theorem tolerateNoEntries_emptyGuard {α : Type} (l : List α) (msg : String) :
    tolerateNoEntries (if l.isEmpty then (.error .noEntries : Except DBErr (List α)) else .ok l) msg = .ok l := by
  by_cases h : l.isEmpty
  · simp [tolerateNoEntries, h, List.isEmpty_iff.mp h]
  · simp [tolerateNoEntries, h]

theorem unfollowLoop_spec (pol : Account → Follow → Option FromClientAPI) (a : Account) :
    ∀ (fs : List Follow) (db : DBState) (msgs : List FromClientAPI),
      unfollowLoop pol a db fs msgs =
        (fs.foldl (fun db f => db.deleteFollowByID f.ID) db, msgs ++ fs.filterMap (pol a))
  | [], db, msgs => by simp [unfollowLoop]
  | f :: rest, db, msgs => by
    simp only [unfollowLoop, List.foldl_cons, List.filterMap_cons]
    cases h : pol a f with
    | some m => simp [h, unfollowLoop_spec pol a rest]
    | none => simp [h, unfollowLoop_spec pol a rest]

theorem unfollowRequestLoop_spec (pol : Account → Follow → Option FromClientAPI) (a : Account) :
    ∀ (frs : List FollowRequest) (db : DBState) (msgs : List FromClientAPI),
      unfollowRequestLoop pol a db frs msgs =
        (frs.foldl (fun db fr => db.deleteFollowRequestByID fr.ID) db,
         msgs ++ (frs.map followRequestToFollow).filterMap (pol a))
  | [], db, msgs => by simp [unfollowRequestLoop]
  | fr :: rest, db, msgs => by
    simp only [unfollowRequestLoop, List.foldl_cons, List.map_cons, List.filterMap_cons]
    cases h : pol a (followRequestToFollow fr) with
    | some m => simp [h, unfollowRequestLoop_spec pol a rest]
    | none => simp [h, unfollowRequestLoop_spec pol a rest]

theorem countP_lt_of_witness {α : Type} (p q : α → Bool) :
    ∀ (l : List α) (x : α), x ∈ l → q x = true → p x = false →
      (∀ y ∈ l, p y = true → q y = true) →
      l.countP p < l.countP q
  | [], x, hx, _, _, _ => absurd hx (List.not_mem_nil x)
  | a :: l, x, hx, hqx, hpx, mono => by
    rcases List.mem_cons.mp hx with rfl | hx2
    · have hle : l.countP p ≤ l.countP q :=
        List.countP_mono_left (fun y hy hp => mono y (List.mem_cons_of_mem _ hy) hp)
      rw [List.countP_cons, List.countP_cons, hpx, hqx]
      simp only [Bool.false_eq_true, if_false, if_true]
      omega
    · have hlt : l.countP p < l.countP q :=
        countP_lt_of_witness p q l x hx2 hqx hpx
          (fun y hy hp => mono y (List.mem_cons_of_mem _ hy) hp)
      rw [List.countP_cons, List.countP_cons]
      have hite : (if p a = true then (1 : Nat) else 0) ≤ (if q a = true then 1 else 0) := by
        by_cases hpa : p a = true
        · simp [hpa, mono a (List.mem_cons_self a l) hpa]
        · simp [hpa]
      omega

theorem mem_insertStatusDesc {a s : Status} :
    ∀ {l : List Status}, a ∈ insertStatusDesc s l → a = s ∨ a ∈ l
  | [], h => by simpa [insertStatusDesc] using h
  | t :: rest, h => by
    simp only [insertStatusDesc] at h
    by_cases hc : strLt t.ID s.ID = true
    · rw [if_pos hc] at h
      rcases List.mem_cons.mp h with rfl | h2
      · exact .inl rfl
      · exact .inr h2
    · rw [if_neg hc] at h
      rcases List.mem_cons.mp h with rfl | h2
      · exact .inr (List.mem_cons_self _ _)
      · rcases mem_insertStatusDesc h2 with h3 | h4
        · exact .inl h3
        · exact .inr (List.mem_cons_of_mem _ h4)

theorem mem_sortStatusesDesc {a : Status} :
    ∀ {l : List Status}, a ∈ sortStatusesDesc l → a ∈ l
  | [], h => by simp [sortStatusesDesc] at h
  | s :: rest, h => by
    simp only [sortStatusesDesc] at h
    rcases mem_insertStatusDesc h with rfl | h2
    · exact List.mem_cons_self _ _
    · exact List.mem_cons_of_mem _ (mem_sortStatusesDesc h2)

/-- Progress of the status pager: the statuses matching the cursor taken
from the last row of a non-empty page are strictly fewer than those
matching the previous cursor (status ids are assumed non-empty, as ULIDs
are). -/
theorem nextPage_decrease (db : DBState) (accountID maxID : String) (last : Status)
    (hlast : ((sortStatusesDesc (db.statuses.filter (statusSelect accountID maxID))).take
      deleteSelectLimit).getLast? = some last)
    (hwf : ∀ s ∈ db.statuses, s.ID ≠ "") :
    db.statuses.countP (statusSelect accountID last.ID) <
      db.statuses.countP (statusSelect accountID maxID) := by
  have hmem0 : last ∈ (sortStatusesDesc (db.statuses.filter (statusSelect accountID maxID))).take
      deleteSelectLimit := List.mem_of_mem_getLast? hlast
  have hmem2 : last ∈ db.statuses.filter (statusSelect accountID maxID) :=
    mem_sortStatusesDesc (List.mem_of_mem_take hmem0)
  obtain ⟨hmem, hsel⟩ := List.mem_filter.mp hmem2
  have hID : last.ID ≠ "" := hwf last hmem
  have hIDbeq : (last.ID == "") = false := beq_eq_false_iff_ne.mpr hID
  have hplast : statusSelect accountID last.ID last = false := by
    simp [statusSelect, hIDbeq, strLt_irrefl]
  refine countP_lt_of_witness _ _ db.statuses last hmem hsel hplast ?_
  intro y hy hp
  simp only [statusSelect, Bool.and_eq_true, Bool.or_eq_true] at hp hsel ⊢
  obtain ⟨hacc, hcur⟩ := hp
  refine ⟨hacc, ?_⟩
  rcases hcur with hempty | hlt
  · rw [hIDbeq] at hempty
    cases hempty
  · rcases hsel.2 with hmax | hmax2
    · exact Or.inl hmax
    · exact Or.inr (strLt_trans hlt hmax2)

theorem getAccountByID_not_storeErr (db : DBState) (id : String) :
    db.getAccountByID id ≠ .error .storeErr := by
  simp only [DBState.getAccountByID]
  cases db.accounts.find? (fun a => a.ID == id) <;> simp

theorem processBoosts_ok (account : Account) (status : Status) (db : DBState) :
    ∀ (boosts : List Status) (msgs : List FromClientAPI),
      ∃ msgs2, processBoosts account status db boosts msgs = .ok msgs2
  | [], msgs => ⟨msgs, rfl⟩
  | boost :: rest, msgs => by
    simp only [processBoosts]
    cases hba : boost.Account with
    | some acc => exact processBoosts_ok account status db rest _
    | none =>
      cases hga : db.getAccountByID boost.AccountID with
      | ok a => exact processBoosts_ok account status db rest _
      | error e =>
        cases e with
        | noEntries => exact processBoosts_ok account status db rest _
        | storeErr => exact absurd hga (getAccountByID_not_storeErr db boost.AccountID)

theorem processStatusPage_ok (account : Account) (db : DBState) :
    ∀ (statuses : List Status) (msgs : List FromClientAPI),
      ∃ msgs2, processStatusPage account db statuses msgs = .ok msgs2
  | [], msgs => ⟨msgs, rfl⟩
  | status :: rest, msgs => by
    simp only [processStatusPage, DBState.getStatusReblogs, tolerateNoEntries_emptyGuard]
    obtain ⟨m2, hm2⟩ := processBoosts_ok account _ db _ _
    rw [hm2]
    exact processStatusPage_ok account db rest m2

/-- The paging loop succeeds whenever the fuel exceeds the number of
statuses matching the cursor, which the caller-supplied fuel always
does. -/
theorem deleteStatusesLoop_ok (account : Account) (db : DBState)
    (hwf : ∀ s ∈ db.statuses, s.ID ≠ "") :
    ∀ (fuel : Nat) (maxID : String) (msgs : List FromClientAPI) (pages : Nat),
      db.statuses.countP (statusSelect account.ID maxID) < fuel →
      ∃ r, deleteStatusesLoop account db fuel maxID msgs pages = .ok r := by
  intro fuel
  induction fuel with
  | zero => intro maxID msgs pages h; omega
  | succ n ih =>
    intro maxID msgs pages h
    simp only [deleteStatusesLoop, DBState.getAccountStatuses, tolerateNoEntries_emptyGuard]
    cases hlast : ((sortStatusesDesc (db.statuses.filter (statusSelect account.ID maxID))).take
        deleteSelectLimit).getLast? with
    | none => exact ⟨(msgs, pages), rfl⟩
    | some last =>
      obtain ⟨m2, hm2⟩ := processStatusPage_ok account db _ msgs
      rw [hm2]
      refine ih last.ID m2 (pages + 1) ?_
      have hdec := nextPage_decrease db account.ID maxID last hlast hwf
      omega

theorem foldl_deleteFollow_users : ∀ (fs : List Follow) (db : DBState),
    (fs.foldl (fun db f => db.deleteFollowByID f.ID) db).users = db.users
  | [], _ => rfl
  | _ :: rest, _ => foldl_deleteFollow_users rest _

theorem foldl_deleteFollow_statuses : ∀ (fs : List Follow) (db : DBState),
    (fs.foldl (fun db f => db.deleteFollowByID f.ID) db).statuses = db.statuses
  | [], _ => rfl
  | _ :: rest, _ => foldl_deleteFollow_statuses rest _

theorem foldl_deleteFollowRequest_users : ∀ (frs : List FollowRequest) (db : DBState),
    (frs.foldl (fun db fr => db.deleteFollowRequestByID fr.ID) db).users = db.users
  | [], _ => rfl
  | _ :: rest, _ => foldl_deleteFollowRequest_users rest _

theorem foldl_deleteFollowRequest_statuses : ∀ (frs : List FollowRequest) (db : DBState),
    (frs.foldl (fun db fr => db.deleteFollowRequestByID fr.ID) db).statuses = db.statuses
  | [], _ => rfl
  | _ :: rest, _ => foldl_deleteFollowRequest_statuses rest _

theorem foldl_tokens_users : ∀ (ts : List Token) (db : DBState),
    (ts.foldl (fun db t =>
      ((db.deleteClientByID t.ClientID).deleteApplicationsByClientID t.ClientID).deleteTokenByID t.ID) db).users = db.users
  | [], _ => rfl
  | _ :: rest, _ => foldl_tokens_users rest _

theorem foldl_tokens_statuses : ∀ (ts : List Token) (db : DBState),
    (ts.foldl (fun db t =>
      ((db.deleteClientByID t.ClientID).deleteApplicationsByClientID t.ClientID).deleteTokenByID t.ID) db).statuses = db.statuses
  | [], _ => rfl
  | _ :: rest, _ => foldl_tokens_statuses rest _

theorem updateUser_presence (db : DBState) (user2 : User) (accID : String)
    (hold : ∃ u ∈ db.users, u.AccountID = accID) (hacc : user2.AccountID = accID) :
    ∃ u ∈ db.users.map (fun x => if x.ID == user2.ID then user2 else x), u.AccountID = accID := by
  obtain ⟨u, hmem, huacc⟩ := hold
  have hm : (if u.ID == user2.ID then user2 else u) ∈
      db.users.map (fun x => if x.ID == user2.ID then user2 else x) :=
    List.mem_map_of_mem _ hmem
  by_cases h : (u.ID == user2.ID) = true
  · rw [if_pos h] at hm
    exact ⟨user2, hm, hacc⟩
  · rw [if_neg h] at hm
    exact ⟨u, hm, huacc⟩

theorem deleteUserAndTokensForAccount_ok (crypto : CryptoOracle) (st : ProcState) (account : Account)
    (uuid : List Nat) (pw : String)
    (hu : crypto.uuidBytes = .ok uuid) (hb : crypto.bcryptHash uuid = .ok pw)
    (huser : ∃ u ∈ st.db.users, u.AccountID = account.ID) :
    ∃ st1, deleteUserAndTokensForAccount crypto st account = .ok st1
      ∧ st1.db.statuses = st.db.statuses
      ∧ st1.queued = st.queued
      ∧ ∃ u ∈ st1.db.users, u.AccountID = account.ID := by
  obtain ⟨u0, hmem0, hacc0⟩ := huser
  have hsome : (st.db.users.find? (fun u => u.AccountID == account.ID)).isSome :=
    List.find?_isSome.mpr ⟨u0, hmem0, by simp [hacc0]⟩
  obtain ⟨user, hfind⟩ := Option.isSome_iff_exists.mp hsome
  have huacc : user.AccountID = account.ID := by simpa using List.find?_some hfind
  have humem : user ∈ st.db.users := List.mem_of_find?_eq_some hfind
  simp only [deleteUserAndTokensForAccount, DBState.getUserByAccountID, hfind, stubbifyUser,
    hu, hb, Bind.bind, Except.bind, Pure.pure, Except.pure]
  refine ⟨_, rfl, ?_, rfl, ?_⟩
  · simp [DBState.updateUser, foldl_tokens_statuses]
  · exact updateUser_presence _ _ _
      ⟨user, by rw [foldl_tokens_users]; exact humem, huacc⟩ huacc

theorem deleteAccountFollows_ok (st : ProcState) (account : Account) :
    ∃ st1, deleteAccountFollows st account = .ok st1
      ∧ st1.db.users = st.db.users ∧ st1.db.statuses = st.db.statuses := by
  simp only [deleteAccountFollows, DBState.getAccountFollowers, DBState.getAccountFollowRequests,
    DBState.getAccountFollows, DBState.getAccountFollowRequesting, tolerateNoEntries_emptyGuard,
    unfollowLoop_spec, unfollowRequestLoop_spec]
  refine ⟨_, rfl, ?_, ?_⟩
  · simp [enqueueClientAPI, foldl_deleteFollow_users, foldl_deleteFollowRequest_users]
  · simp [enqueueClientAPI, foldl_deleteFollow_statuses, foldl_deleteFollowRequest_statuses]

theorem deleteAccountBlocks_ok (st : ProcState) (account : Account) :
    ∃ st1, deleteAccountBlocks st account = .ok st1
      ∧ st1.db.users = st.db.users ∧ st1.db.statuses = st.db.statuses :=
  ⟨_, rfl, rfl, rfl⟩

theorem deleteAccountStatuses_ok (st : ProcState) (account : Account)
    (hwf : ∀ s ∈ st.db.statuses, s.ID ≠ "") :
    ∃ st1, deleteAccountStatuses st account = .ok st1 ∧ st1.db = st.db := by
  obtain ⟨r, hr⟩ := deleteStatusesLoop_ok account st.db hwf (st.db.statuses.length + 1) "" [] 0
    (Nat.lt_succ_of_le (List.countP_le_length _))
  obtain ⟨msgs, pages⟩ := r
  refine ⟨enqueueClientAPI st msgs, ?_, rfl⟩
  simp only [deleteAccountStatuses, hr]

theorem tolerateDel_if (db db2 : DBState) (b : Bool) :
    tolerateDel (if b = true then .error .noEntries else .ok db2) db =
      .ok (if b = true then db else db2) := by
  cases b <;> simp [tolerateDel]

theorem deleteAccountNotifications_ok (st : ProcState) (account : Account) :
    ∃ st1, deleteAccountNotifications st account = .ok st1
      ∧ st1.db.users = st.db.users ∧ st1.db.statuses = st.db.statuses := by
  simp only [deleteAccountNotifications, DBState.deleteNotifications, tolerateDel_if]
  refine ⟨_, rfl, ?_, ?_⟩ <;> (repeat' split) <;> rfl

theorem deleteAccountPeripheral_ok (st : ProcState) (account : Account) :
    ∃ st1, deleteAccountPeripheral st account = .ok st1
      ∧ st1.db.users = st.db.users ∧ st1.db.statuses = st.db.statuses := by
  simp only [deleteAccountPeripheral, DBState.deleteStatusBookmarks, DBState.deleteStatusFaves,
    tolerateDel_if]
  refine ⟨_, rfl, ?_, ?_⟩ <;> (repeat' split) <;> rfl

/-- The whole cascade succeeds for every store state whose status ids
are non-empty, provided the credential primitives succeed and, for a
local account, the user row exists; the cascade never deletes statuses
from the store inline (they are deleted asynchronously by the workers)
and never deletes the user row, so both side conditions are preserved. -/
theorem Delete_ok (crypto : CryptoOracle) (now : Nat) (st : ProcState) (account : Account) (origin : String)
    (uuid : List Nat) (pw : String)
    (hu : crypto.uuidBytes = .ok uuid) (hb : crypto.bcryptHash uuid = .ok pw)
    (hwf : ∀ s ∈ st.db.statuses, s.ID ≠ "")
    (huser : account.IsLocal = true → ∃ u ∈ st.db.users, u.AccountID = account.ID) :
    ∃ st2, Delete crypto now st account origin = .ok st2
      ∧ st2.db.statuses = st.db.statuses
      ∧ (account.IsLocal = true → ∃ u ∈ st2.db.users, u.AccountID = account.ID) := by
  obtain ⟨st1, h1, hstat1, hus1⟩ : ∃ st1,
      (if account.IsLocal then deleteUserAndTokensForAccount crypto st account
        else pure st : Except String ProcState) = .ok st1
      ∧ st1.db.statuses = st.db.statuses
      ∧ (account.IsLocal = true → ∃ u ∈ st1.db.users, u.AccountID = account.ID) := by
    by_cases hl : account.IsLocal = true
    · obtain ⟨s, hs, hstat, _, hpres⟩ :=
        deleteUserAndTokensForAccount_ok crypto st account uuid pw hu hb (huser hl)
      refine ⟨s, ?_, hstat, fun _ => hpres⟩
      rw [if_pos hl]
      exact hs
    · refine ⟨st, ?_, rfl, fun h => absurd h hl⟩
      rw [if_neg hl]
      rfl
  obtain ⟨st2, h2, hus2, hstat2⟩ := deleteAccountFollows_ok st1 account
  obtain ⟨st3, h3, hus3, hstat3⟩ := deleteAccountBlocks_ok st2 account
  have hwf3 : ∀ s ∈ st3.db.statuses, s.ID ≠ "" := by
    rw [hstat3, hstat2, hstat1]
    exact hwf
  obtain ⟨st4, h4, hdb4⟩ := deleteAccountStatuses_ok st3 account hwf3
  obtain ⟨st5, h5, hus5, hstat5⟩ := deleteAccountNotifications_ok st4 account
  obtain ⟨st6, h6, hus6, hstat6⟩ := deleteAccountPeripheral_ok st5 account
  have hdel : Delete crypto now st account origin = .ok { st6 with db := st6.db.updateAccount (stubbifyAccount account origin now).1 (stubbifyAccount account origin now).2 } := by
    by_cases hl : account.IsLocal = true
    · rw [if_pos hl] at h1
      simp only [Delete, if_pos hl, h1, h2, h3, h4, h5, h6, Bind.bind, Except.bind,
        Pure.pure, Except.pure]
    · rw [if_neg hl] at h1
      have hst : st = st1 := by simpa [Pure.pure, Except.pure, Except.ok.injEq] using h1
      subst hst
      simp only [Delete, if_neg hl, h2, h3, h4, h5, h6, Bind.bind, Except.bind,
        Pure.pure, Except.pure]
  refine ⟨_, hdel, ?_, ?_⟩
  · show st6.db.statuses = st.db.statuses
    rw [hstat6, hstat5, hdb4, hstat3, hstat2, hstat1]
  · intro hl
    show ∃ u ∈ st6.db.users, u.AccountID = account.ID
    rw [hus6, hus5, hdb4, hus3, hus2]
    exact hus1 hl

/-! ## Claim theorems -/

/-- C4: stubbifyAccount clears the fetch timestamp, avatar and header
references, display name, emoji references, profile fields, bio (rendered
and raw), memorial flag, alias and moved-to references, application
reason, discoverability, content-type preference and custom styling, sets
suspended-at to the given current time and suspension-origin to the given
origin, forces hide-collections true and RSS false, and returns exactly
the list of column names of the fields it changed. -/
theorem stubbifyAccount_clears_and_reports (account : Account) (origin : String) (now : Nat) :
    (stubbifyAccount account origin now).1.FetchedAt = 0
    ∧ (stubbifyAccount account origin now).1.AvatarMediaAttachmentID = ""
    ∧ (stubbifyAccount account origin now).1.AvatarRemoteURL = ""
    ∧ (stubbifyAccount account origin now).1.HeaderMediaAttachmentID = ""
    ∧ (stubbifyAccount account origin now).1.HeaderRemoteURL = ""
    ∧ (stubbifyAccount account origin now).1.DisplayName = ""
    ∧ (stubbifyAccount account origin now).1.EmojiIDs = []
    ∧ (stubbifyAccount account origin now).1.Emojis = []
    ∧ (stubbifyAccount account origin now).1.Fields = []
    ∧ (stubbifyAccount account origin now).1.Note = ""
    ∧ (stubbifyAccount account origin now).1.NoteRaw = ""
    ∧ (stubbifyAccount account origin now).1.Memorial = false
    ∧ (stubbifyAccount account origin now).1.AlsoKnownAs = ""
    ∧ (stubbifyAccount account origin now).1.MovedToAccountID = ""
    ∧ (stubbifyAccount account origin now).1.Reason = ""
    ∧ (stubbifyAccount account origin now).1.Discoverable = false
    ∧ (stubbifyAccount account origin now).1.StatusContentType = ""
    ∧ (stubbifyAccount account origin now).1.CustomCSS = ""
    ∧ (stubbifyAccount account origin now).1.SuspendedAt = now
    ∧ (stubbifyAccount account origin now).1.SuspensionOrigin = origin
    ∧ (stubbifyAccount account origin now).1.HideCollections = true
    ∧ (stubbifyAccount account origin now).1.EnableRSS = false
    ∧ (stubbifyAccount account origin now).2 =
      ["fetched_at", "avatar_media_attachment_id", "avatar_remote_url",
       "header_media_attachment_id", "header_remote_url", "display_name",
       "emojis", "fields", "note", "note_raw", "memorial", "also_known_as",
       "moved_to_account_id", "reason", "discoverable", "status_content_type",
       "custom_css", "suspended_at", "suspension_origin", "hide_collections",
       "enable_rss"] :=
  ⟨rfl, rfl, rfl, rfl, rfl, rfl, rfl, rfl, rfl, rfl, rfl, rfl, rfl, rfl, rfl,
   rfl, rfl, rfl, rfl, rfl, rfl, rfl, rfl⟩

/-- C6: DeleteSelf enqueues exactly one batch holding exactly one message
whose object type is actor-person and activity type is delete, with the
account itself as both origin and target, leaves the store untouched, and
returns success. -/
theorem DeleteSelf_single_delete_actor_event (st : ProcState) (account : Account) :
    DeleteSelf st account =
      .ok { db := st.db,
            queued := st.queued ++
              [[{ APObjectType := ap.ActorPerson
                  APActivityType := ap.ActivityDelete
                  GTSModel := none
                  OriginAccount := some account
                  TargetAccount := some account }]] } := rfl

/-- C7: the stubbification transforms leave the account id, username and
domain and the user email unchanged and keep them out of the returned
column manifests. -/
theorem stubbify_preserves_identity_fields (account : Account) (origin : String) (now : Nat)
    (crypto : CryptoOracle) (user : User) :
    (stubbifyAccount account origin now).1.ID = account.ID
    ∧ (stubbifyAccount account origin now).1.Username = account.Username
    ∧ (stubbifyAccount account origin now).1.Domain = account.Domain
    ∧ "id" ∉ (stubbifyAccount account origin now).2
    ∧ "username" ∉ (stubbifyAccount account origin now).2
    ∧ "domain" ∉ (stubbifyAccount account origin now).2
    ∧ (∀ u cols, stubbifyUser crypto user = .ok (u, cols) →
        u.Email = user.Email ∧ "email" ∉ cols) := by
  refine ⟨rfl, rfl, rfl, by simp only [stubbifyAccount]; decide,
    by simp only [stubbifyAccount]; decide, by simp only [stubbifyAccount]; decide, ?_⟩
  intro u cols h
  cases hu : crypto.uuidBytes with
  | error e => simp [stubbifyUser, hu, Bind.bind, Except.bind] at h
  | ok uuid =>
    cases hb : crypto.bcryptHash uuid with
    | error e => simp [stubbifyUser, hu, hb, Bind.bind, Except.bind] at h
    | ok pw =>
      simp only [stubbifyUser, hu, hb, Bind.bind, Except.bind, Pure.pure, Except.pure] at h
      cases h
      exact ⟨rfl, by decide⟩

/-- C5: stubbifyUser fails exactly when uuid generation or bcrypt hashing
fails, on success replaces the stored password hash with the bcrypt hash
of the freshly generated random value, and a stubbification failure makes
the user-and-tokens step fail, which aborts the whole cascade. -/
theorem stubbifyUser_password_replacement (crypto : CryptoOracle) (user : User) :
    (∀ e, crypto.uuidBytes = .error e → stubbifyUser crypto user = .error e)
    ∧ (∀ uuid e, crypto.uuidBytes = .ok uuid → crypto.bcryptHash uuid = .error e →
        stubbifyUser crypto user = .error e)
    ∧ (∀ uuid pw, crypto.uuidBytes = .ok uuid → crypto.bcryptHash uuid = .ok pw →
        ∃ cols, stubbifyUser crypto user =
          .ok ({ user with
                  EncryptedPassword := pw, SignUpIP := "0.0.0.0",
                  CurrentSignInAt := 0, CurrentSignInIP := "0.0.0.0",
                  LastSignInAt := 0, LastSignInIP := "0.0.0.0",
                  SignInCount := 1, Locale := "", CreatedByApplicationID := "",
                  LastEmailedAt := 0, ConfirmationToken := "", ConfirmationSentAt := 0,
                  ResetPasswordToken := "", ResetPasswordSentAt := 0 }, cols))
    ∧ (∀ (st : ProcState) (account : Account) (u : User) (e : Unit),
        st.db.getUserByAccountID account.ID = .ok u →
        stubbifyUser crypto u = .error e →
        deleteUserAndTokensForAccount crypto st account =
          .error "deleteUserAndTokensForAccount: error stubbifying user")
    ∧ (∀ (st : ProcState) (account : Account) (e : String) (now : Nat) (origin : String),
        account.IsLocal = true →
        deleteUserAndTokensForAccount crypto st account = .error e →
        Delete crypto now st account origin = .error e) := by
  refine ⟨?_, ?_, ?_, ?_, ?_⟩
  · intro e hu
    simp [stubbifyUser, hu, Bind.bind, Except.bind]
  · intro uuid e hu hb
    simp [stubbifyUser, hu, hb, Bind.bind, Except.bind]
  · intro uuid pw hu hb
    refine ⟨["encrypted_password", "sign_up_ip", "current_sign_in_at",
      "current_sign_in_ip", "last_sign_in_at", "last_sign_in_ip",
      "sign_in_count", "locale", "created_by_application_id",
      "last_emailed_at", "confirmation_token", "confirmation_sent_at",
      "reset_password_token", "reset_password_sent_at"], ?_⟩
    simp [stubbifyUser, hu, hb, Bind.bind, Except.bind, Pure.pure, Except.pure]
  · intro st account u e hget hstub
    simp [deleteUserAndTokensForAccount, hget, hstub]
  · intro st account e now origin hlocal herr
    simp [Delete, hlocal, herr, Bind.bind, Except.bind]

/-- C8: UpdateAttachment stamps the update timestamp with the current
time and the updated_at column is always among the persisted columns,
in particular when a caller-supplied column list omitted it. -/
theorem UpdateAttachment_stamps_updated_at (m : MediaDBState) (now : Nat)
    (media : MediaAttachment) (columns : List String) :
    (UpdateAttachment m now media columns).2.1.UpdatedAt = now
    ∧ "updated_at" ∈ (UpdateAttachment m now media columns).2.2 := by
  constructor
  · rfl
  · cases columns with
    | nil => simp [UpdateAttachment, mediaAttachmentColumns]
    | cons c cs => simp [UpdateAttachment]

theorem getAttachmentsLoop_spec (m : MediaDBState) :
    ∀ (ids : List String) (acc : List MediaAttachment) (loads : Nat),
      getAttachmentsLoop m ids acc loads =
        (.ok (acc ++ ids.filterMap (fun id => (m.getAttachmentByID id).toOption)),
         loads + ids.length)
  | [], acc, loads => by simp [getAttachmentsLoop]
  | id :: rest, acc, loads => by
    simp only [getAttachmentsLoop, List.filterMap_cons]
    cases h : m.getAttachmentByID id with
    | error e =>
      simp [h, Except.toOption, getAttachmentsLoop_spec m rest, List.length_cons]
      omega
    | ok a =>
      simp [h, Except.toOption, getAttachmentsLoop_spec m rest, List.length_cons]
      omega

/-- C9: GetAttachmentsByIDs issues exactly one cached load per requested
id, returns a successful result whose list is the same-order sequence of
attachments of the ids whose individual load succeeded, and never fails,
even when every lookup fails. -/
theorem getAttachmentsByIDs_best_effort (m : MediaDBState) (ids : List String) :
    m.getAttachmentsByIDs ids =
      (.ok (ids.filterMap (fun id => (m.getAttachmentByID id).toOption)), ids.length) := by
  simpa using getAttachmentsLoop_spec m ids [] 0

/-- C10: MediaPrune rejects a negative retention argument as a bad
request without invoking the media manager, and for a non-negative
argument delegates to PruneAll and returns success when the delegation
succeeds. -/
theorem MediaPrune_validation (r : Except Unit Unit) (d : Int) :
    (d < 0 → MediaPrune r d = (.error .badRequest, false))
    ∧ (0 ≤ d → r = .ok () → MediaPrune r d = (.ok (), true)) := by
  constructor
  · intro h
    simp [MediaPrune, h]
  · intro h hr
    simp [MediaPrune, not_lt.mpr h, hr]

/-! ## Witnesses -/

/-- Witness for C7 at a concrete user and oracle. -/
theorem stubbify_preserves_identity_fields_witness :
    ({ baseUser with
        EncryptedPassword := "stub-hash", SignUpIP := "0.0.0.0",
        CurrentSignInAt := 0, CurrentSignInIP := "0.0.0.0",
        LastSignInAt := 0, LastSignInIP := "0.0.0.0",
        SignInCount := 1, Locale := "", CreatedByApplicationID := "",
        LastEmailedAt := 0, ConfirmationToken := "", ConfirmationSentAt := 0,
        ResetPasswordToken := "", ResetPasswordSentAt := 0 } : User).Email = baseUser.Email
    ∧ "email" ∉ ["encrypted_password", "sign_up_ip", "current_sign_in_at",
        "current_sign_in_ip", "last_sign_in_at", "last_sign_in_ip",
        "sign_in_count", "locale", "created_by_application_id",
        "last_emailed_at", "confirmation_token", "confirmation_sent_at",
        "reset_password_token", "reset_password_sent_at"] :=
  (stubbify_preserves_identity_fields baseAccount "origin" 0 cryptoOK baseUser).2.2.2.2.2.2
    _ _ rfl

/-- C2: the unfollow side effects of the follow-deletion step follow a
policy fixed once per Delete call: a non-local deleted account emits
nothing for any edge; a local deleted account skips edges whose target
account record is missing and edges with a local target; for a remote
target exactly one undo-follow message is emitted from the deleted
account to that target.  The two outgoing passes of deleteAccountFollows
apply exactly this policy to every deleted edge (follow requests through
the synthetic follow) and dispatch the results as a single batch. -/
theorem unfollow_side_effects_policy (deleted : Account) :
    (deleted.IsLocal = false → ∀ (a : Account) (f : Follow),
      unfollowSideEffectsFunc deleted a f = none)
    ∧ (deleted.IsLocal = true → ∀ (a : Account) (f : Follow), f.TargetAccount = none →
      unfollowSideEffectsFunc deleted a f = none)
    ∧ (deleted.IsLocal = true → ∀ (a t : Account) (f : Follow), f.TargetAccount = some t →
      t.IsLocal = true → unfollowSideEffectsFunc deleted a f = none)
    ∧ (deleted.IsLocal = true → ∀ (a t : Account) (f : Follow), f.TargetAccount = some t →
      t.IsLocal = false → unfollowSideEffectsFunc deleted a f =
        some { APObjectType := ap.ActivityFollow
               APActivityType := ap.ActivityUndo
               GTSModel := some (.follow f)
               OriginAccount := some a
               TargetAccount := some t })
    ∧ (∀ (st : ProcState),
        ∃ (db' : DBState) (following : List Follow) (followRequesting : List FollowRequest),
          deleteAccountFollows st deleted =
            .ok { db := db',
                  queued := st.queued ++
                    [following.filterMap (unfollowSideEffectsFunc deleted deleted)
                      ++ (followRequesting.map followRequestToFollow).filterMap
                          (unfollowSideEffectsFunc deleted deleted)] }) := by
  refine ⟨?_, ?_, ?_, ?_, ?_⟩
  · intro h a f
    simp [unfollowSideEffectsFunc, h]
  · intro h a f hta
    simp [unfollowSideEffectsFunc, h, hta]
  · intro h a t f hta htl
    simp [unfollowSideEffectsFunc, h, hta, htl]
  · intro h a t f hta htl
    simp [unfollowSideEffectsFunc, h, hta, htl]
  · intro st
    simp only [deleteAccountFollows, DBState.getAccountFollowers,
      DBState.getAccountFollowRequests, DBState.getAccountFollows,
      DBState.getAccountFollowRequesting, tolerateNoEntries_emptyGuard,
      unfollowLoop_spec, unfollowRequestLoop_spec, enqueueClientAPI,
      List.nil_append]
    exact ⟨_, _, _, rfl⟩

/-- Witness for C2 at concrete local and remote accounts, one follow per
policy branch, plus one concrete run of deleteAccountFollows. -/
theorem unfollow_side_effects_policy_witness :
    unfollowSideEffectsFunc remoteAccount remoteAccount (followTo (some localAccount2)) = none
    ∧ unfollowSideEffectsFunc localAccount2 localAccount2 (followTo none) = none
    ∧ unfollowSideEffectsFunc localAccount2 localAccount2 (followTo (some baseAccount)) = none
    ∧ unfollowSideEffectsFunc localAccount2 localAccount2 (followTo (some remoteAccount)) =
        some { APObjectType := ap.ActivityFollow
               APActivityType := ap.ActivityUndo
               GTSModel := some (.follow (followTo (some remoteAccount)))
               OriginAccount := some localAccount2
               TargetAccount := some remoteAccount }
    ∧ ∃ (db' : DBState) (following : List Follow) (followRequesting : List FollowRequest),
        deleteAccountFollows ⟨emptyDB, []⟩ localAccount2 =
          .ok { db := db',
                queued := [] ++
                  [following.filterMap (unfollowSideEffectsFunc localAccount2 localAccount2)
                    ++ (followRequesting.map followRequestToFollow).filterMap
                        (unfollowSideEffectsFunc localAccount2 localAccount2)] } :=
  ⟨(unfollow_side_effects_policy remoteAccount).1 (by decide) remoteAccount (followTo (some localAccount2)),
   (unfollow_side_effects_policy localAccount2).2.1 (by decide) localAccount2 (followTo none) rfl,
   (unfollow_side_effects_policy localAccount2).2.2.1 (by decide) localAccount2 baseAccount
     (followTo (some baseAccount)) rfl (by decide),
   (unfollow_side_effects_policy localAccount2).2.2.2.1 (by decide) localAccount2 remoteAccount
     (followTo (some remoteAccount)) rfl (by decide),
   (unfollow_side_effects_policy localAccount2).2.2.2.2 ⟨emptyDB, []⟩⟩

/-! ## Status paging fixtures (C3) -/

/-- Three-digit decimal string of a natural number below 1000; its
lexicographic order agrees with the numeric order. -/
def pad3 (n : Nat) : String :=
  String.mk [Char.ofNat (48 + n / 100), Char.ofNat (48 + (n / 10) % 10), Char.ofNat (48 + n % 10)]

/-- The local account owning 120 statuses. -/
def c3Account : Account := { baseAccount with ID := "author01", Username := "author" }

/-- A remote booster whose account record is not attached to its boost
row and must be fetched. -/
def boosterRemote : Account :=
  { baseAccount with ID := "boosterR", Username := "br", Domain := "remote.example" }

/-- A local booster whose account record is attached to its boost row. -/
def boosterLocal : Account := { baseAccount with ID := "boosterL", Username := "bl" }

/-- One hundred and twenty statuses owned by the account, ids 100-219. -/
def c3OwnStatuses : List Status :=
  (List.range 120).map (fun n =>
    ({ ID := pad3 (100 + n), AccountID := c3Account.ID, BoostOfID := "", Account := none } : Status))

/-- A boost of status 100 with no attached account record. -/
def c3BoostDetached : Status :=
  { ID := "b00", AccountID := boosterRemote.ID, BoostOfID := pad3 100, Account := none }

/-- A boost of status 219 with its account record attached. -/
def c3BoostAttached : Status :=
  { ID := "b01", AccountID := boosterLocal.ID, BoostOfID := pad3 219, Account := some boosterLocal }

/-- Store holding the 120 statuses and the two boosts. -/
def c3DB : DBState :=
  { emptyDB with
    accounts := [c3Account, boosterRemote],
    statuses := c3OwnStatuses ++ [c3BoostDetached, c3BoostAttached] }

/-- C3: the status pager reads pages of at most 50 rows, advancing the
cursor to the last row of each page and stopping on an empty page; for
the account with 120 statuses it consumes exactly 3 non-empty pages and
produces exactly 120 delete-note messages with the deleted account as
origin and target plus exactly one undo-announce message per existing
reblog (two here), all dispatched as a single batch with the store left
untouched by this step. -/
theorem deleteAccountStatuses_pages_and_events :
    (∀ (db : DBState) (accountID maxID : String),
      match db.getAccountStatuses accountID deleteSelectLimit maxID with
      | .ok l => l.length ≤ deleteSelectLimit
      | .error _ => True)
    ∧ (deleteStatusesLoop c3Account c3DB (c3DB.statuses.length + 1) "" [] 0).toOption.map
        (fun r => (r.2, r.1.length,
          r.1.countP (fun msg => decide (msg.APObjectType = ap.ObjectNote)
            && decide (msg.APActivityType = ap.ActivityDelete)
            && decide (msg.OriginAccount = some c3Account)
            && decide (msg.TargetAccount = some c3Account)),
          r.1.countP (fun msg => decide (msg.APObjectType = ap.ActivityAnnounce)
            && decide (msg.APActivityType = ap.ActivityUndo))))
      = some (3, 122, 120, 2)
    ∧ (deleteAccountStatuses ⟨c3DB, []⟩ c3Account).toOption.map
        (fun st => (st.queued.length, decide (st.db = c3DB)))
      = some (1, true) := by
  refine ⟨?_, by decide, by decide⟩
  intro db accountID maxID
  simp only [DBState.getAccountStatuses]
  by_cases h : ((sortStatusesDesc (db.statuses.filter (statusSelect accountID maxID))).take deleteSelectLimit).isEmpty = true
  · rw [if_pos h]
    trivial
  · rw [if_neg h]
    show ((sortStatusesDesc (db.statuses.filter (statusSelect accountID maxID))).take deleteSelectLimit).length ≤ deleteSelectLimit
    rw [List.length_take]
    exact min_le_left _ _

/-- A local account used by the C1 theorems. -/
def w1Account : Account := { baseAccount with ID := "acctW1", Username := "alice" }

/-- The user row of that account. -/
def w1User : User :=
  { baseUser with ID := "userW1", AccountID := "acctW1", Email := "alice@example.test" }

/-- Store holding the account and its user row. -/
def w1DB : DBState := { emptyDB with accounts := [w1Account], users := [w1User] }

/-- Store holding the local account but no user row. -/
def c1DB : DBState := { emptyDB with accounts := [w1Account] }

/-- Recognizer of the no-matching-rows outcome of the user lookup. -/
def isNoEntriesErr : Except DBErr User → Bool
  | .error .noEntries => true
  | _ => false

/-- C1 (amended): the cascade tolerates no-matching-rows outcomes from
its bulk queries and filtered deletes, but the user lookup of the local
user-and-tokens step requires the user row to exist; since no cascade
step deletes the user row (it is stubbified in place) or deletes status
rows inline, Delete succeeds whenever the credential primitives succeed
and, for a local account, the user row exists, and re-invoking Delete on
the state it produces (the already-stubbified account) succeeds again. -/
theorem Delete_retry_tolerance (crypto : CryptoOracle) (now now2 : Nat) (st : ProcState)
    (account : Account) (origin : String) (uuid : List Nat) (pw : String)
    (hu : crypto.uuidBytes = .ok uuid) (hb : crypto.bcryptHash uuid = .ok pw)
    (hwf : ∀ s ∈ st.db.statuses, s.ID ≠ "")
    (huser : account.IsLocal = true → ∃ u ∈ st.db.users, u.AccountID = account.ID) :
    ∃ st2, Delete crypto now st account origin = .ok st2
      ∧ ∃ st3, Delete crypto now2 st2 account origin = .ok st3 := by
  obtain ⟨st2, h2, hstat, hus⟩ := Delete_ok crypto now st account origin uuid pw hu hb hwf huser
  have hwf2 : ∀ s ∈ st2.db.statuses, s.ID ≠ "" := by
    rw [hstat]
    exact hwf
  obtain ⟨st3, h3, _, _⟩ := Delete_ok crypto now2 st2 account origin uuid pw hu hb hwf2 hus
  exact ⟨st2, h2, st3, h3⟩

/-- C1 counterexample: for a local account whose user row is missing,
the user lookup of the first cascade step returns the no-matching-rows
outcome and Delete surfaces it as an error instead of treating it as
success, so not every step tolerates no matching rows. -/
theorem Delete_no_rows_surfaced :
    isNoEntriesErr (c1DB.getUserByAccountID w1Account.ID) = true
    ∧ (Delete cryptoOK 0 ⟨c1DB, []⟩ w1Account "originX").isOk = false :=
  ⟨rfl, rfl⟩

/-- Witness for C1 at a concrete local account with its user row present
on an otherwise empty store. -/
theorem Delete_retry_tolerance_witness :
    ∃ st2, Delete cryptoOK 0 ⟨w1DB, []⟩ w1Account "originX" = .ok st2
      ∧ ∃ st3, Delete cryptoOK 0 st2 w1Account "originX" = .ok st3 :=
  Delete_retry_tolerance cryptoOK 0 0 ⟨w1DB, []⟩ w1Account "originX" [0] "stub-hash" rfl rfl
    (by intro s hs; simp [w1DB, emptyDB] at hs)
    (fun _ => ⟨w1User, by simp [w1DB, emptyDB], rfl⟩)

/-- Witness for C5: a failing uuid primitive makes stubbifyUser fail. -/
theorem stubbifyUser_password_replacement_witness :
    stubbifyUser cryptoFail baseUser = .error () :=
  (stubbifyUser_password_replacement cryptoFail baseUser).1 () rfl

/-- Witness for C10 at concrete arguments on both sides of the
validation. -/
theorem MediaPrune_validation_witness :
    MediaPrune (.ok ()) (-1) = (.error .badRequest, false)
    ∧ MediaPrune (.ok ()) 7 = (.ok (), true) :=
  ⟨(MediaPrune_validation (.ok ()) (-1)).1 (by decide),
   (MediaPrune_validation (.ok ()) 7).2 (by decide) rfl⟩

end GTS
